import Mathlib

/- Shallow embedding of the class-session scheduling core of the
face_app_attendance repository (src/backend/courses).  Times of day are
minutes since midnight, dates are day numbers, and Django querysets are
lists of session records.  The course_assignment foreign-key chain
(course_assignment.lecturer, course_assignment.course.department,
course_assignment.course.level) is denormalized into the session record,
since the scheduling queries only ever read those three derived keys.
String-valued display fields (titles, course codes, messages) are dropped
from the records that only carry them for display. -/

/- Recurrence patterns of ClassSession.RECURRENCE_CHOICES (models.py). -/
inductive RecurrencePattern where
  | none
  | daily
  | weekly
  | biweekly
  | monthly
  deriving DecidableEq

/- One row of the class_sessions table (models.py, class ClassSession),
restricted to the fields the scheduling core reads. -/
structure Session where
  id : Option Nat := Option.none
  lecturerId : Nat
  department : Nat
  level : Nat
  room : Option Nat := Option.none
  scheduledDate : Nat
  startTime : Nat
  endTime : Nat
  attendanceWindowStart : Nat := 0
  attendanceWindowEnd : Nat := 30
  isRecurring : Bool := false
  recurrencePattern : RecurrencePattern := RecurrencePattern.none
  recurrenceEndDate : Option Nat := Option.none
  parentSession : Option Nat := Option.none
  isActive : Bool := true
  isCancelled : Bool := false
  cancellationReason : String := ""
  deriving DecidableEq

inductive ConflictKind where
  | room
  | lecturer
  | student
  deriving DecidableEq

/- One conflict dict built by ClassSession.check_conflicts (models.py
lines 288-355); the title / course-code / message strings are dropped. -/
structure Conflict where
  kind : ConflictKind
  sessionId : Option Nat
  startTime : Nat
  endTime : Nat
  deriving DecidableEq

/- The overlap test used uniformly by the source:
self.start_time < session.end_time and self.end_time > session.start_time. -/
def timesOverlap (aStart aEnd bStart bEnd : Nat) : Bool :=
  decide (aStart < bEnd ∧ aEnd > bStart)

/- Filter clause is_active=True, is_cancelled=False, scheduled_date=d. -/
def activeOnDate (d : Nat) (s : Session) : Bool :=
  s.isActive && !s.isCancelled && decide (s.scheduledDate = d)

/- The queryset clause .exclude(id=self.id if self.id else None): a row is
kept when its id differs from the id of the candidate (ids of persisted
rows are positive, so the Python falsy-zero case never arises). -/
def notExcludedBy (candId : Option Nat) (s : Session) : Bool :=
  decide (¬ s.id = candId)

/- The for-loop in each block of check_conflicts: every queryset row
passing the overlap test contributes one conflict dict. -/
def conflictsAgainst (k : ConflictKind) (cand : Session) (others : List Session) :
    List Conflict :=
  (others.filter (fun s =>
      timesOverlap cand.startTime cand.endTime s.startTime s.endTime)).map
    (fun s => { kind := k, sessionId := s.id, startTime := s.startTime,
                endTime := s.endTime })

/- Queryset of the room-conflict block of check_conflicts. -/
def roomQuery (cand : Session) (db : List Session) (r : Nat) : List Session :=
  db.filter (fun s => s.room == some r && activeOnDate cand.scheduledDate s &&
    notExcludedBy cand.id s)

/- Queryset of the lecturer-conflict block of check_conflicts. -/
def lecturerQuery (cand : Session) (db : List Session) : List Session :=
  db.filter (fun s => s.lecturerId == cand.lecturerId &&
    activeOnDate cand.scheduledDate s && notExcludedBy cand.id s)

/- Queryset of the student-conflict block of check_conflicts (same
department and level as the course of the candidate). -/
def studentQuery (cand : Session) (db : List Session) : List Session :=
  db.filter (fun s => s.department == cand.department && s.level == cand.level &&
    activeOnDate cand.scheduledDate s && notExcludedBy cand.id s)

/- ClassSession.check_conflicts (models.py lines 288-355): room block
(only when a room is set), then lecturer block, then student block. -/
def check_conflicts (cand : Session) (db : List Session) : List Conflict :=
  (match cand.room with
   | Option.none => []
   | some r => conflictsAgainst ConflictKind.room cand (roomQuery cand db r)) ++
  conflictsAgainst ConflictKind.lecturer cand (lecturerQuery cand db) ++
  conflictsAgainst ConflictKind.student cand (studentQuery cand db)

/- Working hours of lecturer_free_times (views.py lines 170-172). -/
def working_start : Nat := 8 * 60

def working_end : Nat := 18 * 60

/- One free-slot dict of lecturer_free_times. -/
structure FreeSlot where
  startTime : Nat
  endTime : Nat
  durationMinutes : Nat
  deriving DecidableEq

/- The cursor walk of lecturer_free_times (views.py lines 174-202): for
each session in start-time order emit the gap before it when the gap is at
least the requested duration, advance the cursor to max(cursor, end), and
finally emit the remaining window up to 18:00 under the same duration
rule. -/
def slotWalk (duration : Nat) : Nat → List Session → List FreeSlot
  | current, [] =>
    if current < working_end then
      if duration ≤ working_end - current then
        [{ startTime := current, endTime := working_end,
           durationMinutes := working_end - current }]
      else []
    else []
  | current, s :: rest =>
    (if current < s.startTime then
       if duration ≤ s.startTime - current then
         [{ startTime := current, endTime := s.startTime,
            durationMinutes := s.startTime - current }]
       else []
     else []) ++ slotWalk duration (max current s.endTime) rest

/- The queryset .order_by(start_time): a stable ascending sort by start
time, modelled by insertion sort (stable, so extensionally equal to the
stable sort of the database layer). -/
def sortByStart (l : List Session) : List Session :=
  List.insertionSort (fun a b => a.startTime ≤ b.startTime) l

/- Queryset of lecturer_free_times (views.py lines 163-168). -/
def lecturerSessions (db : List Session) (lecturerId date : Nat) : List Session :=
  sortByStart (db.filter (fun s => s.lecturerId == lecturerId && activeOnDate date s))

/- Core of the endpoint lecturer_free_times (views.py lines 150-202). -/
def lecturer_free_times (db : List Session) (lecturerId date duration : Nat) :
    List FreeSlot :=
  slotWalk duration working_start (lecturerSessions db lecturerId date)

/- A row of accounts user table, restricted to id and role. -/
structure UserRec where
  id : Nat
  role : String
  deriving DecidableEq

/- The query parameters read by lecturer_free_times and
suggest_optimal_times.  duration defaults to 120 and room_type to
physical exactly as in the source. -/
structure QueryParams where
  course_assignment_id : Option Nat := Option.none
  lecturer_id : Option Nat := Option.none
  date : Option Nat := Option.none
  duration : Nat := 120
  room_type : String := "physical"
  deriving DecidableEq

/- The request-level behaviour of lecturer_free_times: missing lecturer_id
or date gives the missing-parameters error, an unknown lecturer id gives
the not-found error, otherwise the free slots are computed for the
lecturer_id parameter. -/
def lecturerFreeTimesView (users : List UserRec) (db : List Session)
    (p : QueryParams) : Except String (List FreeSlot) :=
  match p.lecturer_id, p.date with
  | some lid, some d =>
    match users.find? (fun u => u.id == lid && u.role == "lecturer") with
    | Option.none => Except.error "Lecturer not found"
    | some _ => Except.ok (lecturer_free_times db lid d p.duration)
  | _, _ => Except.error "Missing required parameters"

/- A row of the rooms table (models.py, class Room), restricted to the
fields suggest_optimal_times reads. -/
structure Room where
  id : Nat
  room_type : String
  capacity : Nat := 50
  is_available : Bool := true
  deriving DecidableEq

/- One suggestion dict of suggest_optimal_times; available rooms are
recorded by id. -/
structure Suggestion where
  startTime : Nat
  endTime : Nat
  durationMinutes : Nat
  availableRooms : List Nat
  score : Nat
  deriving DecidableEq

/- A row of the course_assignments table, with the course foreign key
denormalized to (department, level) as in the Session record. -/
structure CourseAssignment where
  id : Nat
  lecturerId : Nat
  department : Nat
  level : Nat
  deriving DecidableEq

/- The inner room check of suggest_optimal_times (views.py lines
1063-1075): a room is kept when no active, non-cancelled session booked in
it on that date overlaps the trial interval. -/
def roomFreeForSlot (db : List Session) (d startT endT : Nat) (r : Room) : Bool :=
  (db.filter (fun s => s.room == some r.id && activeOnDate d s)).all
    (fun s => !(timesOverlap startT endT s.startTime s.endTime))

/- The body of the free-slot loop of suggest_optimal_times (views.py
lines 1047-1093).  The trial end time start + duration never wraps past
midnight on any reachable input, because the duration filter bounds it by
the end of the free slot, which is a time of day; plain addition is
therefore extensionally equal to the time arithmetic of the source. -/
def suggestionForSlot (db studentSessions : List Session) (rooms : List Room)
    (d duration : Nat) (fs : FreeSlot) : Option Suggestion :=
  if duration ≤ fs.durationMinutes then
    let startT := fs.startTime
    let endT := startT + duration
    if studentSessions.any (fun s =>
        timesOverlap startT endT s.startTime s.endTime) then
      Option.none
    else
      let availForSlot := (rooms.filter (roomFreeForSlot db d startT endT)).map Room.id
      if availForSlot.isEmpty then Option.none
      else some { startTime := startT, endTime := endT, durationMinutes := duration,
                  availableRooms := availForSlot, score := availForSlot.length }
  else Option.none

def suggestFromSlots (db studentSessions : List Session) (rooms : List Room)
    (d duration : Nat) (slots : List FreeSlot) : List Suggestion :=
  slots.filterMap (suggestionForSlot db studentSessions rooms d duration)

/- optimal_suggestions.sort(key=score, reverse=True): a stable descending
sort by score, modelled by insertion sort with the reversed comparison
(CPython timsort with reverse=True is also stable). -/
def sortSuggestions (l : List Suggestion) : List Suggestion :=
  List.insertionSort (fun a b => b.score ≤ a.score) l

/- The post-lookup body of suggest_optimal_times (views.py lines
1030-1107): the cohort queryset of the resolved assignment, the available
rooms of the requested type, the free-slot loop, the stable descending
sort by score, and the truncation to the top five. -/
def suggestCore (db : List Session) (a : CourseAssignment) (rooms : List Room)
    (d duration : Nat) (rtype : String) (slots : List FreeSlot) : List Suggestion :=
  (sortSuggestions (suggestFromSlots db
    (sortByStart (db.filter (fun s =>
      s.department == a.department && s.level == a.level && activeOnDate d s)))
    (rooms.filter (fun r => r.room_type == rtype && r.is_available))
    d duration slots)).take 5

/- The endpoint suggest_optimal_times (views.py lines 1006-1113).  Note
that the lecturer whose free slots are used comes from the forwarded
request object, hence from the lecturer_id query parameter, not from the
course assignment. -/
def suggest_optimal_times (users : List UserRec) (assignments : List CourseAssignment)
    (rooms : List Room) (db : List Session) (p : QueryParams) :
    Except String (List Suggestion) :=
  match p.course_assignment_id, p.date with
  | some caid, some d =>
    match assignments.find? (fun a => a.id == caid) with
    | Option.none => Except.error "Course assignment not found"
    | some a =>
      match lecturerFreeTimesView users db p with
      | Except.error e => Except.error e
      | Except.ok slots =>
        Except.ok (suggestCore db a rooms d p.duration p.room_type slots)
  | _, _ => Except.error "Missing required parameters"

/- The increment table of create_recurring_sessions (views.py lines
561-574), in days.  The monthly branch is modelled by its explicit
30-day fallback (timedelta(days=30)); the optional calendar-aware
dateutil increment is environment-dependent and outside the model.  The
pattern none hits the early return of the source. -/
def patternIncrement : RecurrencePattern → Option Nat
  | RecurrencePattern.daily => some 1
  | RecurrencePattern.weekly => some 7
  | RecurrencePattern.biweekly => some 14
  | RecurrencePattern.monthly => some 30
  | RecurrencePattern.none => Option.none

/- The child constructed inside the while loop (views.py lines 584-606):
all scheduling fields cloned from the parent, is_recurring False,
parent_session set to the parent, and the unset fields at their model
defaults. -/
def recurringClone (parent : Session) (d : Nat) : Session :=
  { id := Option.none
    lecturerId := parent.lecturerId
    department := parent.department
    level := parent.level
    room := parent.room
    scheduledDate := d
    startTime := parent.startTime
    endTime := parent.endTime
    attendanceWindowStart := parent.attendanceWindowStart
    attendanceWindowEnd := parent.attendanceWindowEnd
    isRecurring := false
    recurrencePattern := RecurrencePattern.none
    recurrenceEndDate := Option.none
    parentSession := parent.id
    isActive := true
    isCancelled := false
    cancellationReason := "" }

/- The while loop of create_recurring_sessions (views.py lines 582-619):
while the current date is within the recurrence end date, build the
clone, check conflicts against the database (which already holds the
children saved so far), save only when conflict-free, then advance by the
increment.  The structural fuel argument makes the recursion total; the
caller always supplies enough fuel for the loop to run to its real end. -/
def expandLoop (parent : Session) (inc endDate : Nat) :
    Nat → Nat → Nat → List Session → List Session × List Session
  | 0, _, _, db => (db, [])
  | fuel + 1, current, nextId, db =>
    if current ≤ endDate then
      let child := recurringClone parent current
      if (check_conflicts child db).isEmpty then
        let saved := { child with id := some nextId }
        let recres := expandLoop parent inc endDate fuel (current + inc) (nextId + 1)
          (db ++ [saved])
        (recres.1, saved :: recres.2)
      else
        expandLoop parent inc endDate fuel (current + inc) nextId db
    else (db, [])

/- create_recurring_sessions (views.py lines 550-619): resolve the
increment, start one increment after the parent date, and run the loop.
A missing recurrence end date cannot reach the loop in the source (the
serializer validates it); that arm returns the database unchanged. -/
def create_recurring_sessions (db : List Session) (parent : Session) (nextId : Nat) :
    List Session × List Session :=
  match parent.recurrenceEndDate with
  | Option.none => (db, [])
  | some endDate =>
    match patternIncrement parent.recurrencePattern with
    | Option.none => (db, [])
    | some inc =>
      expandLoop parent inc endDate (endDate + 1) (parent.scheduledDate + inc) nextId db

/- Reference list of the dates the while loop visits: parent.date + inc,
parent.date + 2 * inc, ... while within the end date. -/
def iterDates (inc endDate : Nat) : Nat → Nat → List Nat
  | 0, _ => []
  | fuel + 1, current =>
    if current ≤ endDate then current :: iterDates inc endDate fuel (current + inc)
    else []

inductive CreateError where
  | validation (msg : String)
  | conflict (conflicts : List Conflict)
  deriving DecidableEq

/- ClassSessionSerializer.validate (serializers.py lines 113-132), in
source order: time range, attendance window, recurrence pattern,
recurrence end date. -/
def serializer_validate (data : Session) : Except String Session :=
  if data.endTime ≤ data.startTime then
    Except.error "End time must be after start time"
  else if data.attendanceWindowEnd ≤ data.attendanceWindowStart then
    Except.error "Attendance window end must be after start"
  else if data.isRecurring && data.recurrencePattern == RecurrencePattern.none then
    Except.error "Recurrence pattern must be specified for recurring sessions"
  else if data.isRecurring && data.recurrenceEndDate == (Option.none : Option Nat) then
    Except.error "Recurrence end date is required for recurring sessions"
  else Except.ok data

/- ClassSessionListCreateView.perform_create (views.py lines 499-548)
composed with the serializer validation that runs before it: validate,
check conflicts on the unsaved candidate, raise carrying the full
conflict list on any conflict, otherwise save and, for a recurring
session with a real pattern, expand the recurrence.  Permission checks
and notifications are boundary concerns outside the model. -/
def perform_create (db : List Session) (input : Session) (nextId : Nat) :
    Except CreateError (List Session × Session) :=
  match serializer_validate input with
  | Except.error m => Except.error (CreateError.validation m)
  | Except.ok data =>
    let temp := { data with id := (Option.none : Option Nat) }
    let conflicts := check_conflicts temp db
    if conflicts.isEmpty then
      let saved := { temp with id := some nextId }
      let db1 := db ++ [saved]
      if saved.isRecurring && !(saved.recurrencePattern == RecurrencePattern.none) then
        Except.ok ((create_recurring_sessions db1 saved (nextId + 1)).1, saved)
      else
        Except.ok (db1, saved)
    else Except.error (CreateError.conflict conflicts)

/- ClassSessionDetailView.perform_destroy (views.py lines 657-671): the
object is fetched from the is_active queryset; when it is a recurring
parent with existing children and delete_all is passed, the children are
deactivated; finally the instance itself is deactivated.  The is_cancelled
flag and the cancellation reason are never touched. -/
def perform_destroy (db : List Session) (sid : Nat) (deleteAll : Bool) : List Session :=
  match db.find? (fun s => s.id == some sid && s.isActive) with
  | Option.none => db
  | some inst =>
    let db1 :=
      if inst.isRecurring && db.any (fun c => c.parentSession == some sid) && deleteAll
      then
        db.map (fun c =>
          if c.parentSession == some sid then { c with isActive := false } else c)
      else db
    db1.map (fun s => if s.id == some sid then { s with isActive := false } else s)

/- serializer.save for a freshly validated candidate: append the row with
its new primary key. -/
def insertSaved (db : List Session) (s : Session) (nid : Nat) : List Session :=
  db ++ [{ s with id := some nid }]

/- The check-then-write interleaving of two concurrent create requests in
which both conflict checks read the database before either insert commits.
perform_create wraps no transaction and takes no lock, so the database
layer may realize exactly this schedule of its four operations. -/
def raceCreate (db : List Session) (a b : Session) (nidA nidB : Nat) : List Session :=
  let okA := (check_conflicts { a with id := (Option.none : Option Nat) } db).isEmpty
  let okB := (check_conflicts { b with id := (Option.none : Option Nat) } db).isEmpty
  let db1 := if okA then insertSaved db a nidA else db
  if okB then insertSaved db1 b nidB else db1

/- A committed double booking: two distinct active, non-cancelled rows
sharing a room and date with overlapping times. -/
def hasRoomDoubleBooking (db : List Session) : Bool :=
  db.any (fun s => db.any (fun t =>
    decide (¬ s.id = t.id) && s.room.isSome && s.room == t.room &&
    decide (s.scheduledDate = t.scheduledDate) &&
    s.isActive && !s.isCancelled && t.isActive && !t.isCancelled &&
    timesOverlap s.startTime s.endTime t.startTime t.endTime))

/- Number of free slots covering a given minute. -/
def slotCoverCount (slots : List FreeSlot) (t : Nat) : Nat :=
  slots.countP (fun fs => decide (fs.startTime ≤ t ∧ t < fs.endTime))

/- Number of sessions of a list covering a given minute. -/
def sessionCoverCount (l : List Session) (t : Nat) : Nat :=
  l.countP (fun s => decide (s.startTime ≤ t ∧ t < s.endTime))

/- Database state observed after a create request: Django raises the
validation or conflict error before serializer.save runs, so an erroring
request leaves the table as it was. -/
def createResultDb (db : List Session) (input : Session) (nextId : Nat) :
    List Session :=
  match perform_create db input nextId with
  | Except.error _ => db
  | Except.ok result => result.1

/- Concrete worlds used by the counterexamples and witnesses below. -/

/- Lecturer 1 is booked through the whole working day of date 0. -/
def exBusyAllDay : Session :=
  { id := some 1, lecturerId := 1, department := 9, level := 999,
    scheduledDate := 0, startTime := 480, endTime := 1080 }

def exUsers : List UserRec :=
  [{ id := 1, role := "lecturer" }, { id := 2, role := "lecturer" }]

/- Assignment 10 resolves to lecturer 1, department 5, level 100. -/
def exAssignments : List CourseAssignment :=
  [{ id := 10, lecturerId := 1, department := 5, level := 100 }]

def exRooms : List Room := [{ id := 1, room_type := "physical" }]

/- A request for assignment 10 whose lecturer_id parameter names
lecturer 2, not lecturer 1 resolved from the assignment. -/
def exParams : QueryParams :=
  { course_assignment_id := some 10, lecturer_id := some 2, date := some 0 }

/- Lecturer 7 has one session 09:00-10:00 on date 5. -/
def exGapSession : Session :=
  { id := some 3, lecturerId := 7, department := 1, level := 1,
    scheduledDate := 5, startTime := 540, endTime := 600 }

/- Scenario D world: lecturer 7 also has 13:00-14:00 on date 5. -/
def exTileB : Session :=
  { id := some 4, lecturerId := 7, department := 1, level := 1,
    scheduledDate := 5, startTime := 780, endTime := 840 }

/- Two mutually overlapping sessions of lecturer 8 on date 2. -/
def exOverlapA : Session :=
  { id := some 5, lecturerId := 8, department := 1, level := 1,
    scheduledDate := 2, startTime := 540, endTime := 660 }

def exOverlapB : Session :=
  { id := some 6, lecturerId := 8, department := 1, level := 1,
    scheduledDate := 2, startTime := 600, endTime := 720 }

/- Weekly recurring parent of scenario E: dated day 10, end date day 31. -/
def exParent : Session :=
  { id := some 1, lecturerId := 1, department := 1, level := 100,
    scheduledDate := 10, startTime := 600, endTime := 720,
    isRecurring := true, recurrencePattern := RecurrencePattern.weekly,
    recurrenceEndDate := some 31 }

/- Two overlapping candidates for room 1 on date 0, from different
lecturers and cohorts. -/
def exRaceA : Session :=
  { id := Option.none, lecturerId := 1, department := 1, level := 100,
    room := some 1, scheduledDate := 0, startTime := 540, endTime := 660 }

def exRaceB : Session :=
  { id := Option.none, lecturerId := 2, department := 2, level := 200,
    room := some 1, scheduledDate := 0, startTime := 600, endTime := 720 }

/- A recurring parent (id 1) with one child (id 2), for the destroy
endpoint. -/
def exDelParent : Session :=
  { id := some 1, lecturerId := 1, department := 1, level := 1,
    scheduledDate := 0, startTime := 540, endTime := 600, isRecurring := true,
    recurrencePattern := RecurrencePattern.weekly, recurrenceEndDate := some 14 }

def exDelChild : Session :=
  { id := some 2, lecturerId := 1, department := 1, level := 1,
    scheduledDate := 7, startTime := 540, endTime := 600,
    parentSession := some 1 }

/- Candidate and persisted session for the conflict-detector witness:
same room 2, same date 3, overlapping 10:00-12:00 vs 11:00-13:00. -/
def exConfOther : Session :=
  { id := some 9, lecturerId := 4, department := 2, level := 200,
    room := some 2, scheduledDate := 3, startTime := 600, endTime := 720 }

def exConfCand : Session :=
  { id := Option.none, lecturerId := 3, department := 3, level := 300,
    room := some 2, scheduledDate := 3, startTime := 660, endTime := 780 }

/- An input whose end time is not after its start time. -/
def exBadInput : Session :=
  { id := Option.none, lecturerId := 1, department := 1, level := 100,
    scheduledDate := 0, startTime := 600, endTime := 600 }

/- Generic list facts used by the stability and ordering arguments. -/

theorem pair_sublist_of_mem {α : Type} {a b : α} {l : List α} (ha : a ∈ l)
    (hb : b ∈ l) (hne : a ≠ b) :
    List.Sublist [a, b] l ∨ List.Sublist [b, a] l := by
  induction l with
  | nil => cases ha
  | cons x t ih =>
    rcases List.mem_cons.mp ha with rfl | ha2
    · rcases List.mem_cons.mp hb with rfl | hb2
      · exact absurd rfl hne
      · exact Or.inl (List.Sublist.cons₂ _ (List.singleton_sublist.mpr hb2))
    · rcases List.mem_cons.mp hb with rfl | hb2
      · exact Or.inr (List.Sublist.cons₂ _ (List.singleton_sublist.mpr ha2))
      · rcases ih ha2 hb2 with h | h
        · exact Or.inl (h.cons _)
        · exact Or.inr (h.cons _)

theorem sublist_pair_antisymm {α : Type} {a b : α} {l : List α} (hnd : l.Nodup)
    (h1 : List.Sublist [a, b] l) (h2 : List.Sublist [b, a] l) : a = b := by
  induction l with
  | nil => cases h1
  | cons x t ih =>
    rw [List.nodup_cons] at hnd
    cases h1 with
    | cons _ h1t =>
      cases h2 with
      | cons _ h2t => exact ih hnd.2 h1t h2t
      | cons₂ _ h2t =>
        exact absurd (h1t.subset (List.mem_cons_of_mem _ (List.mem_singleton_self _)))
          hnd.1
    | cons₂ _ h1t =>
      cases h2 with
      | cons _ h2t =>
        exact absurd (h2t.subset (List.mem_cons_of_mem _ (List.mem_singleton_self _)))
          hnd.1
      | cons₂ _ h2t => rfl

/- Every slot the cursor walk emits starts at or after the cursor, is a
real interval, and records its own length as its duration. -/
theorem slotWalk_bounds : ∀ (duration : Nat) (l : List Session) (current : Nat),
    ∀ fs ∈ slotWalk duration current l,
      current ≤ fs.startTime ∧ fs.startTime < fs.endTime ∧
      fs.durationMinutes = fs.endTime - fs.startTime := by
  intro duration l
  induction l with
  | nil =>
    intro current fs hfs
    simp only [slotWalk] at hfs
    split at hfs
    · split at hfs
      · rename_i h1 h2
        simp only [List.mem_singleton] at hfs
        subst hfs
        exact ⟨Nat.le_refl _, h1, rfl⟩
      · simp at hfs
    · simp at hfs
  | cons s0 rest ih =>
    intro current fs hfs
    simp only [slotWalk, List.mem_append] at hfs
    rcases hfs with hfs | hfs
    · split at hfs
      · split at hfs
        · rename_i h1 h2
          simp only [List.mem_singleton] at hfs
          subst hfs
          exact ⟨Nat.le_refl _, h1, rfl⟩
        · simp at hfs
      · simp at hfs
    · have h := ih (max current s0.endTime) fs hfs
      exact ⟨Nat.le_trans (Nat.le_max_left _ _) h.1, h.2⟩

/- No emitted slot overlaps any session of the walked list, as long as
the list is sorted by start time; the sessions may overlap one another. -/
theorem slotWalk_no_overlap : ∀ (duration : Nat) (l : List Session) (current : Nat),
    List.Pairwise (fun a b : Session => a.startTime ≤ b.startTime) l →
    ∀ fs ∈ slotWalk duration current l, ∀ s ∈ l,
      timesOverlap fs.startTime fs.endTime s.startTime s.endTime = false := by
  intro duration l
  induction l with
  | nil => intro current _ fs _ s hs; simp at hs
  | cons s0 rest ih =>
    intro current hp fs hfs s hs
    rw [List.pairwise_cons] at hp
    simp only [slotWalk, List.mem_append] at hfs
    simp only [timesOverlap, decide_eq_false_iff_not]
    rcases List.mem_cons.mp hs with rfl | hs2
    · rcases hfs with hfs | hfs
      · split at hfs
        · split at hfs
          · rename_i h1 h2
            simp only [List.mem_singleton] at hfs
            subst hfs
            intro hab
            obtain ⟨ha1, ha2⟩ := hab
            dsimp only at ha1 ha2
            omega
          · simp at hfs
        · simp at hfs
      · have hb := slotWalk_bounds duration rest (max current s.endTime) fs hfs
        intro hab
        omega
    · rcases hfs with hfs | hfs
      · split at hfs
        · split at hfs
          · rename_i h1 h2
            simp only [List.mem_singleton] at hfs
            subst hfs
            intro hab
            obtain ⟨ha1, ha2⟩ := hab
            dsimp only at ha1 ha2
            have := hp.1 s hs2
            omega
          · simp at hfs
        · simp at hfs
      · have := ih (max current s0.endTime) hp.2 fs hfs s hs2
        simp only [timesOverlap, decide_eq_false_iff_not] at this
        exact this

/- When every session is a real interval and the list is sorted by start
time, the emitted slots are pairwise disjoint and strictly ordered by
start time. -/
theorem slotWalk_chain : ∀ (duration : Nat) (l : List Session) (current : Nat),
    List.Pairwise (fun a b : Session => a.startTime ≤ b.startTime) l →
    (∀ s ∈ l, s.startTime < s.endTime) →
    List.Pairwise
      (fun a b : FreeSlot => a.endTime ≤ b.startTime ∧ a.startTime < b.startTime)
      (slotWalk duration current l) := by
  intro duration l
  induction l with
  | nil =>
    intro current _ _
    simp only [slotWalk]
    split
    · split
      · exact List.pairwise_singleton _ _
      · exact List.Pairwise.nil
    · exact List.Pairwise.nil
  | cons s0 rest ih =>
    intro current hp hv
    rw [List.pairwise_cons] at hp
    simp only [slotWalk]
    have hrec := ih (max current s0.endTime) hp.2
      (fun s hs => hv s (List.mem_cons_of_mem _ hs))
    split
    · split
      · rename_i h1 h2
        rw [List.singleton_append]
        refine List.pairwise_cons.mpr ⟨?_, hrec⟩
        intro b hb
        have hbb := slotWalk_bounds duration rest (max current s0.endTime) b hb
        have hv0 := hv s0 (List.mem_cons_self _ _)
        refine ⟨?_, ?_⟩ <;> simp only [] <;> omega
      · simpa using hrec
    · simpa using hrec

/- The sorted queryset is sorted by start time. -/
theorem sortByStart_sorted (l : List Session) :
    List.Pairwise (fun a b : Session => a.startTime ≤ b.startTime) (sortByStart l) := by
  haveI : IsTotal Session (fun a b : Session => a.startTime ≤ b.startTime) :=
    ⟨fun a b => Nat.le_total _ _⟩
  haveI : IsTrans Session (fun a b : Session => a.startTime ≤ b.startTime) :=
    ⟨fun _ _ _ h1 h2 => Nat.le_trans h1 h2⟩
  exact List.sorted_insertionSort _ l

theorem mem_sortByStart {s : Session} {l : List Session} :
    s ∈ sortByStart l ↔ s ∈ l := by
  rw [sortByStart]
  exact List.mem_insertionSort _

/- Membership in the lecturer queryset of lecturer_free_times. -/
theorem mem_lecturerSessions {db : List Session} {lid d : Nat} {s : Session} :
    s ∈ lecturerSessions db lid d ↔
      s ∈ db ∧ s.lecturerId = lid ∧ activeOnDate d s = true := by
  simp [lecturerSessions, mem_sortByStart, List.mem_filter, Bool.and_eq_true,
    beq_iff_eq, and_assoc]

/- The walk with duration 0 emits every gap, so its output together with
a disjoint, in-window session list covers each in-window minute exactly
once. -/
theorem slotWalk_tiling : ∀ (l : List Session) (current : Nat),
    current ≤ working_end →
    List.Pairwise (fun a b : Session => a.endTime ≤ b.startTime) l →
    (∀ s ∈ l, current ≤ s.startTime ∧ s.startTime < s.endTime ∧
      s.endTime ≤ working_end) →
    ∀ t, slotCoverCount (slotWalk 0 current l) t + sessionCoverCount l t
      = if current ≤ t ∧ t < working_end then 1 else 0 := by
  intro l
  induction l with
  | nil =>
    intro current hc _ _ t
    simp only [slotWalk, slotCoverCount, sessionCoverCount, List.countP_nil,
      Nat.zero_le, if_true]
    split
    · rename_i h1
      simp only [List.countP_cons, List.countP_nil, decide_eq_true_eq]
      split_ifs <;> omega
    · rename_i h1
      simp only [List.countP_nil]
      split_ifs <;> omega
  | cons s0 rest ih =>
    intro current hc hp hin t
    rw [List.pairwise_cons] at hp
    have hs0 := hin s0 (List.mem_cons_self _ _)
    have hmax : max current s0.endTime = s0.endTime := by omega
    have hrec := ih s0.endTime hs0.2.2 hp.2
      (fun s hs => ⟨hp.1 s hs, (hin s (List.mem_cons_of_mem _ hs)).2⟩) t
    simp only [slotWalk, hmax, Nat.zero_le, if_true, slotCoverCount,
      sessionCoverCount, List.countP_append, List.countP_cons] at hrec ⊢
    by_cases h1 : current < s0.startTime
    · simp only [if_pos h1, List.countP_cons, List.countP_nil, decide_eq_true_eq]
      split_ifs at hrec ⊢ <;> omega
    · simp only [if_neg h1, List.countP_nil, decide_eq_true_eq]
      split_ifs at hrec ⊢ <;> omega

/- Membership characterizations of the three conflict querysets. -/
theorem mem_roomQuery {cand s : Session} {db : List Session} {r : Nat} :
    s ∈ roomQuery cand db r ↔ s ∈ db ∧ s.room = some r ∧
      activeOnDate cand.scheduledDate s = true ∧ s.id ≠ cand.id := by
  simp [roomQuery, List.mem_filter, Bool.and_eq_true, notExcludedBy,
    decide_eq_true_eq, and_assoc]

theorem mem_lecturerQuery {cand s : Session} {db : List Session} :
    s ∈ lecturerQuery cand db ↔ s ∈ db ∧ s.lecturerId = cand.lecturerId ∧
      activeOnDate cand.scheduledDate s = true ∧ s.id ≠ cand.id := by
  simp [lecturerQuery, List.mem_filter, Bool.and_eq_true, notExcludedBy,
    decide_eq_true_eq, and_assoc]

theorem mem_studentQuery {cand s : Session} {db : List Session} :
    s ∈ studentQuery cand db ↔ s ∈ db ∧ s.department = cand.department ∧
      s.level = cand.level ∧ activeOnDate cand.scheduledDate s = true ∧
      s.id ≠ cand.id := by
  simp [studentQuery, List.mem_filter, Bool.and_eq_true, notExcludedBy,
    decide_eq_true_eq, and_assoc]

/- Membership in the per-kind conflict list. -/
theorem mem_conflictsAgainst {k : ConflictKind} {cand : Session}
    {l : List Session} {c : Conflict} :
    c ∈ conflictsAgainst k cand l ↔
      ∃ s ∈ l, (cand.startTime < s.endTime ∧ cand.endTime > s.startTime) ∧
        c = { kind := k, sessionId := s.id, startTime := s.startTime,
              endTime := s.endTime } := by
  constructor
  · intro hc
    simp only [conflictsAgainst, List.mem_map, List.mem_filter, timesOverlap,
      decide_eq_true_eq] at hc
    obtain ⟨s, ⟨hsl, hov⟩, rfl⟩ := hc
    exact ⟨s, hsl, hov, rfl⟩
  · rintro ⟨s, hsl, hov, rfl⟩
    simp only [conflictsAgainst, List.mem_map, List.mem_filter, timesOverlap,
      decide_eq_true_eq]
    exact ⟨s, ⟨hsl, hov⟩, rfl⟩

/- Full membership characterization of check_conflicts. -/
theorem mem_check_conflicts {cand : Session} {db : List Session} {c : Conflict} :
    c ∈ check_conflicts cand db ↔
      ((∃ r, cand.room = some r ∧ ∃ s ∈ roomQuery cand db r,
          (cand.startTime < s.endTime ∧ cand.endTime > s.startTime) ∧
          c = { kind := ConflictKind.room, sessionId := s.id,
                startTime := s.startTime, endTime := s.endTime }) ∨
       (∃ s ∈ lecturerQuery cand db,
          (cand.startTime < s.endTime ∧ cand.endTime > s.startTime) ∧
          c = { kind := ConflictKind.lecturer, sessionId := s.id,
                startTime := s.startTime, endTime := s.endTime }) ∨
       (∃ s ∈ studentQuery cand db,
          (cand.startTime < s.endTime ∧ cand.endTime > s.startTime) ∧
          c = { kind := ConflictKind.student, sessionId := s.id,
                startTime := s.startTime, endTime := s.endTime })) := by
  rw [check_conflicts]
  cases hroom : cand.room with
  | none => simp [List.mem_append, mem_conflictsAgainst, hroom]
  | some r => simp [List.mem_append, mem_conflictsAgainst, hroom]

/- Extending the database with rows on other dates does not change the
conflicts of a candidate. -/
theorem check_conflicts_append (cand : Session) (db extra : List Session)
    (h : ∀ s ∈ extra, s.scheduledDate ≠ cand.scheduledDate) :
    check_conflicts cand (db ++ extra) = check_conflicts cand db := by
  have hfilter : ∀ p : Session → Bool, (∀ s ∈ extra, p s = false) →
      (db ++ extra).filter p = db.filter p := by
    intro p hp
    have hnil : List.filter p extra = [] :=
      List.filter_eq_nil_iff.mpr (fun a ha => by simp [hp a ha])
    rw [List.filter_append, hnil, List.append_nil]
  have h1 : ∀ r, roomQuery cand (db ++ extra) r = roomQuery cand db r := fun r =>
    hfilter _ (fun s hs => by simp [activeOnDate, h s hs])
  have h2 : lecturerQuery cand (db ++ extra) = lecturerQuery cand db :=
    hfilter _ (fun s hs => by simp [activeOnDate, h s hs])
  have h3 : studentQuery cand (db ++ extra) = studentQuery cand db :=
    hfilter _ (fun s hs => by simp [activeOnDate, h s hs])
  cases hroom : cand.room with
  | none => simp [check_conflicts, hroom, h2, h3]
  | some r => simp [check_conflicts, hroom, h1 r, h2, h3]

/- Sessions of a database with nodup ids are determined by their id. -/
theorem eq_of_mem_ids {db : List Session} (hnd : (db.map Session.id).Nodup)
    {s1 s2 : Session} (h1 : s1 ∈ db) (h2 : s2 ∈ db) (hid : s1.id = s2.id) :
    s1 = s2 :=
  List.inj_on_of_nodup_map hnd h1 h2 hid

/-- Claim C4: for a candidate with a room set and a persisted active,
non-cancelled session sharing that room and date (and not excluded by
id), check_conflicts reports a room conflict for that session exactly
when candidate.start < other.end and candidate.end > other.start; and
when the two intervals merely touch, no conflict of any kind mentions
that session. -/
theorem room_conflict_iff_overlap
    (db : List Session) (cand s : Session) (r : Nat)
    (hnd : (db.map Session.id).Nodup)
    (hs : s ∈ db) (hcr : cand.room = some r) (hsr : s.room = some r)
    (hdate : s.scheduledDate = cand.scheduledDate) (hact : s.isActive = true)
    (hcan : s.isCancelled = false) (hex : s.id ≠ cand.id) :
    (({ kind := ConflictKind.room, sessionId := s.id, startTime := s.startTime,
        endTime := s.endTime } : Conflict) ∈ check_conflicts cand db ↔
      (cand.startTime < s.endTime ∧ cand.endTime > s.startTime)) ∧
    ((cand.endTime = s.startTime ∨ s.endTime = cand.startTime) →
      ∀ c ∈ check_conflicts cand db, c.sessionId ≠ s.id) := by
  have hActive : activeOnDate cand.scheduledDate s = true := by
    simp [activeOnDate, hact, hcan, hdate]
  constructor
  · constructor
    · intro hc
      rcases mem_check_conflicts.mp hc with
        ⟨r2, hr2, s2, hs2, hov, heq⟩ | ⟨s2, hs2, hov, heq⟩ | ⟨s2, hs2, hov, heq⟩
      · simp only [Conflict.mk.injEq] at heq
        have hs2db := (mem_roomQuery.mp hs2).1
        have hss : s2 = s := eq_of_mem_ids hnd hs2db hs heq.2.1.symm
        subst hss
        exact hov
      · simp at heq
      · simp at heq
    · intro hov
      exact mem_check_conflicts.mpr (Or.inl ⟨r, hcr, s,
        mem_roomQuery.mpr ⟨hs, hsr, hActive, hex⟩, hov, rfl⟩)
  · intro htouch c hc hcid
    rcases mem_check_conflicts.mp hc with
      ⟨r2, hr2, s2, hs2, hov, heq⟩ | ⟨s2, hs2, hov, heq⟩ | ⟨s2, hs2, hov, heq⟩
    · have hs2db := (mem_roomQuery.mp hs2).1
      have hss : s2 = s := eq_of_mem_ids hnd hs2db hs (by rw [heq] at hcid; exact hcid)
      subst hss
      rcases htouch with h | h <;> omega
    · have hs2db := (mem_lecturerQuery.mp hs2).1
      have hss : s2 = s := eq_of_mem_ids hnd hs2db hs (by rw [heq] at hcid; exact hcid)
      subst hss
      rcases htouch with h | h <;> omega
    · have hs2db := (mem_studentQuery.mp hs2).1
      have hss : s2 = s := eq_of_mem_ids hnd hs2db hs (by rw [heq] at hcid; exact hcid)
      subst hss
      rcases htouch with h | h <;> omega

/-- Witness for C4: the concrete world with candidate 11:00-13:00 and a
persisted session 10:00-12:00 in the same room on the same date. -/
theorem room_conflict_iff_overlap_witness :
    (([exConfOther].map Session.id).Nodup ∧ exConfOther ∈ [exConfOther] ∧
      exConfCand.room = some 2 ∧ exConfOther.room = some 2 ∧
      exConfOther.scheduledDate = exConfCand.scheduledDate ∧
      exConfOther.isActive = true ∧ exConfOther.isCancelled = false ∧
      exConfOther.id ≠ exConfCand.id) ∧
    ((({ kind := ConflictKind.room, sessionId := exConfOther.id,
         startTime := exConfOther.startTime, endTime := exConfOther.endTime } :
        Conflict) ∈ check_conflicts exConfCand [exConfOther] ↔
      (exConfCand.startTime < exConfOther.endTime ∧
        exConfCand.endTime > exConfOther.startTime)) ∧
     ((exConfCand.endTime = exConfOther.startTime ∨
       exConfOther.endTime = exConfCand.startTime) →
      ∀ c ∈ check_conflicts exConfCand [exConfOther],
        c.sessionId ≠ exConfOther.id)) :=
  ⟨by decide,
   room_conflict_iff_overlap [exConfOther] exConfCand exConfOther 2 (by decide)
     (by decide) rfl rfl rfl rfl rfl (by decide)⟩

/-- Claim C1 (code_bug): perform_create wraps the conflict check and the
insert in no transaction and takes no lock, so the interleaving in which
both concurrent requests run check_conflicts before either insert commits
a room double-booking; run sequentially, the second request would have
been rejected with the room conflict. -/
theorem create_race_double_books :
    check_conflicts { exRaceA with id := Option.none } [] = [] ∧
    check_conflicts { exRaceB with id := Option.none } [] = [] ∧
    hasRoomDoubleBooking (raceCreate [] exRaceA exRaceB 1 2) = true ∧
    perform_create (insertSaved [] exRaceA 1) exRaceB 2 =
      Except.error (CreateError.conflict
        [{ kind := ConflictKind.room, sessionId := some 1, startTime := 540,
           endTime := 660 }]) := by
  refine ⟨rfl, rfl, rfl, rfl⟩

/-- Claim C8 (corrected), counterexample: the destroy operation with the
cascade flag deactivates the recurring parent and its child (isActive
false) but leaves isCancelled false and the cancellation reason empty on
both rows, while the claim says it sets isCancelled true and records a
reason. -/
theorem perform_destroy_does_not_cancel :
    perform_destroy [exDelParent, exDelChild] 1 true =
      [{ exDelParent with isActive := false },
       { exDelChild with isActive := false }] ∧
    (perform_destroy [exDelParent, exDelChild] 1 true).all
      (fun s => !s.isCancelled && s.cancellationReason == "") = true := by
  exact ⟨rfl, rfl⟩

/-- Claim C8 (amended): destroy(id, delete_all) soft-deletes: it sets
isActive false on the session with the given id, and, when delete_all is
set and the session is recurring with at least one child, on every
session whose parentSessionRef equals the id; all other fields, including
isCancelled and the cancellation reason, are unchanged, and rows matching
neither condition keep their isActive value. -/
theorem perform_destroy_spec (db : List Session) (sid : Nat) (deleteAll : Bool)
    (inst : Session)
    (hfind : db.find? (fun s => s.id == some sid && s.isActive) = some inst) :
    List.Forall₂ (fun s0 s1 : Session =>
      s1.id = s0.id ∧ s1.isCancelled = s0.isCancelled ∧
      s1.cancellationReason = s0.cancellationReason ∧
      s1.startTime = s0.startTime ∧ s1.endTime = s0.endTime ∧
      s1.scheduledDate = s0.scheduledDate ∧ s1.room = s0.room ∧
      s1.lecturerId = s0.lecturerId ∧ s1.parentSession = s0.parentSession ∧
      (s0.id = some sid → s1.isActive = false) ∧
      ((inst.isRecurring && db.any (fun c => c.parentSession == some sid) &&
          deleteAll) = true → s0.parentSession = some sid →
        s1.isActive = false) ∧
      (s0.id ≠ some sid →
        ((inst.isRecurring && db.any (fun c => c.parentSession == some sid) &&
            deleteAll) = true → s0.parentSession ≠ some sid) →
        s1.isActive = s0.isActive))
      db (perform_destroy db sid deleteAll) := by
  rw [perform_destroy, hfind]
  dsimp only
  by_cases hcas : (inst.isRecurring && db.any (fun c => c.parentSession == some sid)
      && deleteAll) = true
  · rw [if_pos hcas, List.map_map]
    rw [List.forall₂_map_right_iff]
    apply List.forall₂_same.mpr
    intro a ha
    by_cases hpar : (a.parentSession == some sid) = true <;>
      by_cases hid : (a.id == some sid) = true <;>
        simp_all [Function.comp, beq_iff_eq]
  · rw [if_neg hcas]
    rw [List.forall₂_map_right_iff]
    apply List.forall₂_same.mpr
    intro a ha
    by_cases hid : (a.id == some sid) = true <;> simp_all [beq_iff_eq]
    intro h1 x hx hpx hda hpa
    have hfalse := hcas h1 x hx hpx
    simp [hfalse] at hda

/-- Witness for the amended C8 at the concrete parent-and-child world. -/
theorem perform_destroy_spec_witness :
    ([exDelParent, exDelChild].find?
      (fun s => s.id == some 1 && s.isActive) = some exDelParent) ∧
    List.Forall₂ (fun s0 s1 : Session =>
      s1.id = s0.id ∧ s1.isCancelled = s0.isCancelled ∧
      s1.cancellationReason = s0.cancellationReason ∧
      s1.startTime = s0.startTime ∧ s1.endTime = s0.endTime ∧
      s1.scheduledDate = s0.scheduledDate ∧ s1.room = s0.room ∧
      s1.lecturerId = s0.lecturerId ∧ s1.parentSession = s0.parentSession ∧
      (s0.id = some 1 → s1.isActive = false) ∧
      ((exDelParent.isRecurring &&
          [exDelParent, exDelChild].any (fun c => c.parentSession == some 1) &&
          true) = true → s0.parentSession = some 1 → s1.isActive = false) ∧
      (s0.id ≠ some 1 →
        ((exDelParent.isRecurring &&
            [exDelParent, exDelChild].any (fun c => c.parentSession == some 1) &&
            true) = true → s0.parentSession ≠ some 1) →
        s1.isActive = s0.isActive))
      [exDelParent, exDelChild] (perform_destroy [exDelParent, exDelChild] 1 true) :=
  ⟨rfl, perform_destroy_spec [exDelParent, exDelChild] 1 true exDelParent rfl⟩

/-- Claim C3 (corrected), counterexample: with one busy session
09:00-10:00 and requiredMinutes 120, the 60-minute gap 08:00-09:00 is
shorter than the required duration and is dropped, so minute 500 (08:20)
lies in the working window but is covered neither by a returned free slot
nor by a busy session: the merged output does not tile [08:00,18:00). -/
theorem free_slots_do_not_tile :
    lecturer_free_times [exGapSession] 7 5 120 =
      [{ startTime := 600, endTime := 1080, durationMinutes := 480 }] ∧
    lecturerSessions [exGapSession] 7 5 = [exGapSession] ∧
    working_start ≤ 500 ∧ 500 < working_end ∧
    slotCoverCount (lecturer_free_times [exGapSession] 7 5 120) 500 +
      sessionCoverCount (lecturerSessions [exGapSession] 7 5) 500 = 0 := by
  exact ⟨rfl, rfl, by decide, by decide, rfl⟩

/-- Claim C3 (amended): with requiredMinutes 0 (so that no gap is dropped
by the duration filter) and busy sessions that are pairwise disjoint real
intervals inside the working window, the free slots merged back with the
busy sessions cover every minute of [08:00,18:00) exactly once and no
minute outside it; for positive requiredMinutes the source drops gaps
shorter than the requirement, so the tiling can fail. -/
theorem free_slots_tile (db : List Session) (lid d : Nat)
    (hp : List.Pairwise (fun a b : Session => a.endTime ≤ b.startTime)
      (lecturerSessions db lid d))
    (hin : ∀ s ∈ lecturerSessions db lid d,
      working_start ≤ s.startTime ∧ s.startTime < s.endTime ∧
      s.endTime ≤ working_end) :
    ∀ t, slotCoverCount (lecturer_free_times db lid d 0) t +
        sessionCoverCount (lecturerSessions db lid d) t
      = if working_start ≤ t ∧ t < working_end then 1 else 0 :=
  slotWalk_tiling (lecturerSessions db lid d) working_start (by decide) hp hin

/-- Witness for the amended C3 at the scenario-D world: sessions
09:00-10:00 and 13:00-14:00, requiredMinutes 0. -/
theorem free_slots_tile_witness :
    (List.Pairwise (fun a b : Session => a.endTime ≤ b.startTime)
      (lecturerSessions [exGapSession, exTileB] 7 5) ∧
     ∀ s ∈ lecturerSessions [exGapSession, exTileB] 7 5,
      working_start ≤ s.startTime ∧ s.startTime < s.endTime ∧
      s.endTime ≤ working_end) ∧
    (∀ t, slotCoverCount (lecturer_free_times [exGapSession, exTileB] 7 5 0) t +
        sessionCoverCount (lecturerSessions [exGapSession, exTileB] 7 5) t
      = if working_start ≤ t ∧ t < working_end then 1 else 0) :=
  ⟨⟨by decide, by decide⟩,
   free_slots_tile [exGapSession, exTileB] 7 5 (by decide) (by decide)⟩

/-- Claim C10: the free slots returned by the finder are emitted in
strictly increasing start order and are pairwise disjoint (given that the
busy sessions are real intervals), and no returned slot overlaps any of
the active, non-cancelled sessions of the lecturer on that date, even
when those sessions overlap one another. -/
theorem free_slots_ordered_disjoint_avoid (db : List Session) (lid d dur : Nat)
    (hv : ∀ s ∈ lecturerSessions db lid d, s.startTime < s.endTime) :
    List.Pairwise (fun a b : FreeSlot =>
      a.endTime ≤ b.startTime ∧ a.startTime < b.startTime)
      (lecturer_free_times db lid d dur) ∧
    ∀ fs ∈ lecturer_free_times db lid d dur, ∀ s ∈ lecturerSessions db lid d,
      timesOverlap fs.startTime fs.endTime s.startTime s.endTime = false :=
  ⟨slotWalk_chain dur (lecturerSessions db lid d) working_start
      (sortByStart_sorted _) hv,
   slotWalk_no_overlap dur (lecturerSessions db lid d) working_start
      (sortByStart_sorted _)⟩

/-- Witness for C10 at a world whose two busy sessions overlap each
other: 09:00-11:00 and 10:00-12:00 for lecturer 8 on date 2. -/
theorem free_slots_ordered_disjoint_avoid_witness :
    (∀ s ∈ lecturerSessions [exOverlapA, exOverlapB] 8 2,
      s.startTime < s.endTime) ∧
    (List.Pairwise (fun a b : FreeSlot =>
      a.endTime ≤ b.startTime ∧ a.startTime < b.startTime)
      (lecturer_free_times [exOverlapA, exOverlapB] 8 2 30) ∧
    ∀ fs ∈ lecturer_free_times [exOverlapA, exOverlapB] 8 2 30,
      ∀ s ∈ lecturerSessions [exOverlapA, exOverlapB] 8 2,
      timesOverlap fs.startTime fs.endTime s.startTime s.endTime = false) :=
  ⟨by decide, free_slots_ordered_disjoint_avoid [exOverlapA, exOverlapB] 8 2 30
    (by decide)⟩

/- Evaluation of the suggestion endpoint when all lookups succeed: the
slot list handed to the free-slot loop is the one computed for the
lecturer_id query parameter. -/
theorem suggest_eval
    (users : List UserRec) (assignments : List CourseAssignment)
    (rooms : List Room) (db : List Session) (p : QueryParams)
    (caid d lid : Nat) (a : CourseAssignment) (u : UserRec)
    (hca : p.course_assignment_id = some caid) (hd : p.date = some d)
    (hl : p.lecturer_id = some lid)
    (hfa : assignments.find? (fun x => x.id == caid) = some a)
    (hfu : users.find? (fun x => x.id == lid && x.role == "lecturer") = some u) :
    suggest_optimal_times users assignments rooms db p =
      Except.ok (suggestCore db a rooms d p.duration p.room_type
        (lecturer_free_times db lid d p.duration)) := by
  simp only [suggest_optimal_times, lecturerFreeTimesView, hca, hd, hl, hfa, hfu]

/-- Claim C2 (corrected), counterexample: assignment 10 resolves lecturer
1, who is busy through the whole working day (no free slot of 120
minutes), yet the request carrying lecturer_id=2 returns a suggestion
built from the free slots of lecturer 2; and with lecturer_id omitted the
endpoint fails instead of using the lecturer resolved from the
assignment.  The free slots used are therefore not those of the resolved
lecturer regardless of the other parameters. -/
theorem suggest_ignores_assignment_lecturer :
    suggest_optimal_times exUsers exAssignments exRooms [exBusyAllDay] exParams =
      Except.ok [{ startTime := 480, endTime := 600, durationMinutes := 120,
                   availableRooms := [1], score := 1 }] ∧
    lecturer_free_times [exBusyAllDay] 1 0 120 = [] ∧
    (exAssignments.find? (fun x => x.id == 10)).map CourseAssignment.lecturerId
      = some 1 ∧
    suggest_optimal_times exUsers exAssignments exRooms [exBusyAllDay]
      { exParams with lecturer_id := Option.none } =
      Except.error "Missing required parameters" :=
  ⟨rfl, rfl, rfl, rfl⟩

/-- Claim C2 (amended): the free slots from which suggestions are built
are exactly the free slots of the lecturer named by the lecturer_id query
parameter (the endpoint forwards the raw request to lecturer_free_times);
the lecturer resolved from course_assignment_id plays no part in the slot
computation, and a request without lecturer_id fails. -/
theorem suggest_slots_come_from_lecturer_id
    (users : List UserRec) (assignments : List CourseAssignment)
    (rooms : List Room) (db : List Session) (p : QueryParams)
    (caid d lid : Nat) (a : CourseAssignment) (u : UserRec)
    (hca : p.course_assignment_id = some caid) (hd : p.date = some d)
    (hl : p.lecturer_id = some lid)
    (hfa : assignments.find? (fun x => x.id == caid) = some a)
    (hfu : users.find? (fun x => x.id == lid && x.role == "lecturer") = some u) :
    suggest_optimal_times users assignments rooms db p =
      Except.ok (suggestCore db a rooms d p.duration p.room_type
        (lecturer_free_times db lid d p.duration)) ∧
    (p.lecturer_id = Option.none →
      ∃ e, suggest_optimal_times users assignments rooms db p = Except.error e) :=
  ⟨suggest_eval users assignments rooms db p caid d lid a u hca hd hl hfa hfu,
   fun hnone => absurd (hl ▸ hnone) (by simp)⟩

/-- Witness for the amended C2 at the concrete two-lecturer world. -/
theorem suggest_slots_come_from_lecturer_id_witness :
    (exParams.course_assignment_id = some 10 ∧ exParams.date = some 0 ∧
      exParams.lecturer_id = some 2 ∧
      exAssignments.find? (fun x => x.id == 10) =
        some { id := 10, lecturerId := 1, department := 5, level := 100 } ∧
      exUsers.find? (fun x => x.id == 2 && x.role == "lecturer") =
        some { id := 2, role := "lecturer" }) ∧
    suggest_optimal_times exUsers exAssignments exRooms [exBusyAllDay] exParams =
      Except.ok (suggestCore [exBusyAllDay]
        { id := 10, lecturerId := 1, department := 5, level := 100 } exRooms 0
        exParams.duration exParams.room_type
        (lecturer_free_times [exBusyAllDay] 2 0 exParams.duration)) :=
  ⟨⟨rfl, rfl, rfl, rfl, rfl⟩,
   (suggest_slots_come_from_lecturer_id exUsers exAssignments exRooms
     [exBusyAllDay] exParams 10 0 2
     { id := 10, lecturerId := 1, department := 5, level := 100 }
     { id := 2, role := "lecturer" } rfl rfl rfl rfl rfl).1⟩

theorem mem_suggestFromSlots {db studentSessions : List Session}
    {rooms : List Room} {d dur : Nat} {slots : List FreeSlot} {sug : Suggestion} :
    sug ∈ suggestFromSlots db studentSessions rooms d dur slots ↔
      ∃ fs ∈ slots,
        suggestionForSlot db studentSessions rooms d dur fs = some sug := by
  simp [suggestFromSlots, List.mem_filterMap]

/- What a successfully built suggestion satisfies: it starts at the slot
start, runs for the requested duration inside the slot, avoids every
cohort session, and every room it lists is free of overlapping bookings. -/
theorem suggestionForSlot_props {db studentSessions : List Session}
    {rooms : List Room} {d dur : Nat} {fs : FreeSlot} {sug : Suggestion}
    (h : suggestionForSlot db studentSessions rooms d dur fs = some sug) :
    sug.startTime = fs.startTime ∧ sug.endTime = fs.startTime + dur ∧
    dur ≤ fs.durationMinutes ∧
    (∀ s ∈ studentSessions,
      timesOverlap sug.startTime sug.endTime s.startTime s.endTime = false) ∧
    (∀ rid ∈ sug.availableRooms, ∀ s ∈ db, s.room = some rid →
      activeOnDate d s = true →
      timesOverlap sug.startTime sug.endTime s.startTime s.endTime = false) := by
  rw [suggestionForSlot] at h
  by_cases h1 : dur ≤ fs.durationMinutes
  swap
  · rw [if_neg h1] at h
    cases h
  rw [if_pos h1] at h
  dsimp only at h
  by_cases h2 : (studentSessions.any fun s =>
      timesOverlap fs.startTime (fs.startTime + dur) s.startTime s.endTime) = true
  · rw [if_pos h2] at h
    cases h
  rw [if_neg h2] at h
  by_cases h3 : (List.map Room.id
      (List.filter (roomFreeForSlot db d fs.startTime (fs.startTime + dur))
        rooms)).isEmpty = true
  · rw [if_pos h3] at h
    cases h
  rw [if_neg h3] at h
  injection h with h
  subst h
  refine ⟨rfl, rfl, h1, ?_, ?_⟩
  · intro s hs
    cases hov : timesOverlap fs.startTime (fs.startTime + dur) s.startTime
        s.endTime
    · rfl
    · exact absurd (List.any_eq_true.mpr ⟨s, hs, hov⟩) h2
  · intro rid hrid s hs hroom hact
    simp only [List.mem_map, List.mem_filter] at hrid
    obtain ⟨room, ⟨hroomMem, hfree⟩, hreq⟩ := hrid
    have hsmem : s ∈ db.filter
        (fun x => x.room == some room.id && activeOnDate d x) := by
      refine List.mem_filter.mpr ⟨hs, ?_⟩
      rw [← hreq] at hroom
      simp [hroom, hact]
    have hall := List.all_eq_true.mp hfree s hsmem
    cases hov : timesOverlap fs.startTime (fs.startTime + dur) s.startTime
        s.endTime
    · rfl
    · rw [hov] at hall
      cases hall

/- Conflict freedom of the suggestion engine over the free slots of a
given lecturer: the trial interval of every emitted suggestion avoids the
sessions of that lecturer, the cohort sessions of the assignment, and all
bookings of every room it lists. -/
theorem suggestCore_conflict_free (db : List Session) (a : CourseAssignment)
    (rooms : List Room) (d dur : Nat) (rtype : String) (lid : Nat) :
    ∀ sug ∈ suggestCore db a rooms d dur rtype
      (lecturer_free_times db lid d dur),
      (∀ s ∈ db, s.lecturerId = lid → activeOnDate d s = true →
        timesOverlap sug.startTime sug.endTime s.startTime s.endTime = false) ∧
      (∀ s ∈ db, s.department = a.department → s.level = a.level →
        activeOnDate d s = true →
        timesOverlap sug.startTime sug.endTime s.startTime s.endTime = false) ∧
      (∀ rid ∈ sug.availableRooms, ∀ s ∈ db, s.room = some rid →
        activeOnDate d s = true →
        timesOverlap sug.startTime sug.endTime s.startTime s.endTime = false) := by
  intro sug hsug
  rw [suggestCore] at hsug
  have hsug1 := (List.take_sublist 5 _).subset hsug
  rw [sortSuggestions] at hsug1
  have hsug2 := (List.perm_insertionSort _ _).subset hsug1
  obtain ⟨fs, hfs, hsome⟩ := mem_suggestFromSlots.mp hsug2
  obtain ⟨hst, hen, hdur, hstud, hroomsOk⟩ := suggestionForSlot_props hsome
  have hbounds := slotWalk_bounds dur (lecturerSessions db lid d) working_start
    fs hfs
  refine ⟨?_, ?_, hroomsOk⟩
  · intro s hs hlid hact
    have hmem : s ∈ lecturerSessions db lid d :=
      mem_lecturerSessions.mpr ⟨hs, hlid, hact⟩
    have hno := slotWalk_no_overlap dur (lecturerSessions db lid d)
      working_start (sortByStart_sorted _) fs hfs s hmem
    cases hov : timesOverlap sug.startTime sug.endTime s.startTime s.endTime
    · rfl
    · exfalso
      simp only [timesOverlap, decide_eq_true_eq] at hov
      simp only [timesOverlap, decide_eq_false_iff_not] at hno
      omega
  · intro s hs hdep hlev hact
    have hmem : s ∈ sortByStart (db.filter (fun x =>
        x.department == a.department && x.level == a.level &&
        activeOnDate d x)) := by
      rw [mem_sortByStart]
      refine List.mem_filter.mpr ⟨hs, ?_⟩
      simp [hdep, hlev, hact]
    exact hstud s hmem

/-- Claim C5 (corrected), counterexample: the suggestion returned for
assignment 10 (whose lecturer is 1) overlaps the active, non-cancelled
all-day session of lecturer 1, because the free slots were computed for
the lecturer_id parameter (lecturer 2); so a returned suggestion is not
conflict-free for the lecturer resolved from the course assignment. -/
theorem suggestion_overlaps_assignment_lecturer :
    suggest_optimal_times exUsers exAssignments exRooms [exBusyAllDay] exParams =
      Except.ok [{ startTime := 480, endTime := 600, durationMinutes := 120,
                   availableRooms := [1], score := 1 }] ∧
    (exAssignments.find? (fun x => x.id == 10)).map CourseAssignment.lecturerId
      = some 1 ∧
    exBusyAllDay.lecturerId = 1 ∧ activeOnDate 0 exBusyAllDay = true ∧
    timesOverlap 480 600 exBusyAllDay.startTime exBusyAllDay.endTime = true :=
  ⟨rfl, rfl, rfl, rfl, rfl⟩

/-- Claim C5 (amended): every suggestion returned by the endpoint is
conflict-free over its trial interval for the lecturer named by the
lecturer_id parameter (whose free slots were used), for the cohort
(department, level) of the resolved assignment, and for every room listed
in availableRooms. -/
theorem suggestions_conflict_free
    (users : List UserRec) (assignments : List CourseAssignment)
    (rooms : List Room) (db : List Session) (p : QueryParams)
    (caid d lid : Nat) (a : CourseAssignment) (u : UserRec)
    (out : List Suggestion)
    (hca : p.course_assignment_id = some caid) (hd : p.date = some d)
    (hl : p.lecturer_id = some lid)
    (hfa : assignments.find? (fun x => x.id == caid) = some a)
    (hfu : users.find? (fun x => x.id == lid && x.role == "lecturer") = some u)
    (hout : suggest_optimal_times users assignments rooms db p = Except.ok out) :
    ∀ sug ∈ out,
      (∀ s ∈ db, s.lecturerId = lid → activeOnDate d s = true →
        timesOverlap sug.startTime sug.endTime s.startTime s.endTime = false) ∧
      (∀ s ∈ db, s.department = a.department → s.level = a.level →
        activeOnDate d s = true →
        timesOverlap sug.startTime sug.endTime s.startTime s.endTime = false) ∧
      (∀ rid ∈ sug.availableRooms, ∀ s ∈ db, s.room = some rid →
        activeOnDate d s = true →
        timesOverlap sug.startTime sug.endTime s.startTime s.endTime = false) := by
  have heq := suggest_eval users assignments rooms db p caid d lid a u hca hd hl
    hfa hfu
  rw [hout] at heq
  injection heq with heq
  subst heq
  exact suggestCore_conflict_free db a rooms d p.duration p.room_type lid

/-- Witness for the amended C5 at the concrete two-lecturer world. -/
theorem suggestions_conflict_free_witness :
    (exParams.course_assignment_id = some 10 ∧ exParams.date = some 0 ∧
      exParams.lecturer_id = some 2 ∧
      suggest_optimal_times exUsers exAssignments exRooms [exBusyAllDay]
        exParams =
        Except.ok [{ startTime := 480, endTime := 600, durationMinutes := 120,
                     availableRooms := [1], score := 1 }]) ∧
    (∀ sug ∈ [({ startTime := 480, endTime := 600, durationMinutes := 120,
                 availableRooms := [1], score := 1 } : Suggestion)],
      (∀ s ∈ [exBusyAllDay], s.lecturerId = 2 → activeOnDate 0 s = true →
        timesOverlap sug.startTime sug.endTime s.startTime s.endTime = false) ∧
      (∀ s ∈ [exBusyAllDay], s.department = 5 → s.level = 100 →
        activeOnDate 0 s = true →
        timesOverlap sug.startTime sug.endTime s.startTime s.endTime = false) ∧
      (∀ rid ∈ sug.availableRooms, ∀ s ∈ [exBusyAllDay], s.room = some rid →
        activeOnDate 0 s = true →
        timesOverlap sug.startTime sug.endTime s.startTime s.endTime = false)) :=
  ⟨⟨rfl, rfl, rfl, rfl⟩,
   suggestions_conflict_free exUsers exAssignments exRooms [exBusyAllDay]
     exParams 10 0 2 { id := 10, lecturerId := 1, department := 5, level := 100 }
     { id := 2, role := "lecturer" } _ rfl rfl rfl rfl rfl rfl⟩

/- Suggestions are built in strictly increasing start-time order, one per
accepted free slot. -/
theorem suggestFromSlots_starts_increasing (db studentSessions : List Session)
    (rooms : List Room) (d dur lid : Nat)
    (hv : ∀ s ∈ lecturerSessions db lid d, s.startTime < s.endTime) :
    List.Pairwise (fun x y : Suggestion => x.startTime < y.startTime)
      (suggestFromSlots db studentSessions rooms d dur
        (lecturer_free_times db lid d dur)) := by
  have hchain := slotWalk_chain dur (lecturerSessions db lid d) working_start
    (sortByStart_sorted _) hv
  refine List.Pairwise.filterMap _ ?_ hchain
  intro fs1 fs2 hr sug1 h1 sug2 h2
  rw [Option.mem_def] at h1 h2
  have p1 := suggestionForSlot_props h1
  have p2 := suggestionForSlot_props h2
  rw [p1.1, p2.1]
  exact hr.2

/- A stable descending sort by score of a list with strictly increasing
start times is sorted by score with ties in ascending start order; the
truncation to five keeps that and bounds the length. -/
theorem sortSuggestions_sorted_take (suggs : List Suggestion)
    (hstarts : List.Pairwise
      (fun x y : Suggestion => x.startTime < y.startTime) suggs) :
    ((sortSuggestions suggs).take 5).length ≤ 5 ∧
    List.Pairwise (fun x y : Suggestion =>
      y.score < x.score ∨ (x.score = y.score ∧ x.startTime < y.startTime))
      ((sortSuggestions suggs).take 5) := by
  have hnd : suggs.Nodup :=
    hstarts.imp (fun h he => absurd (he ▸ h) (lt_irrefl _))
  have hperm : List.Perm (sortSuggestions suggs) suggs := by
    rw [sortSuggestions]
    exact List.perm_insertionSort _ _
  have hndSorted : (sortSuggestions suggs).Nodup := hperm.nodup_iff.mpr hnd
  have hsorted : List.Pairwise (fun x y : Suggestion => y.score ≤ x.score)
      (sortSuggestions suggs) := by
    haveI : IsTotal Suggestion (fun x y : Suggestion => y.score ≤ x.score) :=
      ⟨fun a b => Nat.le_total b.score a.score⟩
    haveI : IsTrans Suggestion (fun x y : Suggestion => y.score ≤ x.score) :=
      ⟨fun _ _ _ h1 h2 => Nat.le_trans h2 h1⟩
    rw [sortSuggestions]
    exact List.sorted_insertionSort _ _
  have key : List.Pairwise (fun x y : Suggestion =>
      y.score < x.score ∨ (x.score = y.score ∧ x.startTime < y.startTime))
      (sortSuggestions suggs) := by
    rw [List.pairwise_iff_forall_sublist]
    intro x y hxy
    have hscore : y.score ≤ x.score :=
      List.pairwise_iff_forall_sublist.mp hsorted hxy
    rcases Nat.lt_or_ge y.score x.score with hlt | hge
    · exact Or.inl hlt
    · have heqs : x.score = y.score := Nat.le_antisymm hge hscore
      refine Or.inr ⟨heqs, ?_⟩
      have hxney : x ≠ y := by
        intro he
        subst he
        have hnd2 : List.Nodup [x, x] := hndSorted.sublist hxy
        simp at hnd2
      have hxmem : x ∈ suggs := hperm.subset (hxy.subset (by simp))
      have hymem : y ∈ suggs := hperm.subset (hxy.subset (by simp))
      rcases pair_sublist_of_mem hxmem hymem hxney with hp1 | hp1
      · exact List.pairwise_iff_forall_sublist.mp hstarts hp1
      · have hyx : List.Sublist [y, x] (sortSuggestions suggs) := by
          rw [sortSuggestions]
          exact List.pair_sublist_insertionSort hge hp1
        exact absurd (sublist_pair_antisymm hndSorted hxy hyx) hxney
  constructor
  · rw [List.length_take]
    omega
  · exact key.sublist (List.take_sublist _ _)

/-- Claim C9: the suggestion list returned by the endpoint is sorted by
score (number of available rooms) descending, suggestions of equal score
appear in ascending start-time order (the sort of the source is stable
and the pre-sort list is built in ascending start order), and at most
five suggestions are returned.  The busy sessions of the free-slot
lecturer are assumed to be real intervals. -/
theorem suggestions_sorted_and_capped
    (users : List UserRec) (assignments : List CourseAssignment)
    (rooms : List Room) (db : List Session) (p : QueryParams)
    (caid d lid : Nat) (a : CourseAssignment) (u : UserRec)
    (out : List Suggestion)
    (hca : p.course_assignment_id = some caid) (hd : p.date = some d)
    (hl : p.lecturer_id = some lid)
    (hfa : assignments.find? (fun x => x.id == caid) = some a)
    (hfu : users.find? (fun x => x.id == lid && x.role == "lecturer") = some u)
    (hout : suggest_optimal_times users assignments rooms db p = Except.ok out)
    (hv : ∀ s ∈ lecturerSessions db lid d, s.startTime < s.endTime) :
    out.length ≤ 5 ∧
    List.Pairwise (fun x y : Suggestion =>
      y.score < x.score ∨ (x.score = y.score ∧ x.startTime < y.startTime)) out := by
  have heq := suggest_eval users assignments rooms db p caid d lid a u hca hd hl
    hfa hfu
  rw [hout] at heq
  injection heq with heq
  subst heq
  rw [suggestCore]
  exact sortSuggestions_sorted_take _
    (suggestFromSlots_starts_increasing db _ _ d p.duration lid hv)

/-- Witness for C9 at the concrete two-lecturer world, where the endpoint
returns exactly one suggestion. -/
theorem suggestions_sorted_and_capped_witness :
    (suggest_optimal_times exUsers exAssignments exRooms [exBusyAllDay]
        exParams =
      Except.ok [{ startTime := 480, endTime := 600, durationMinutes := 120,
                   availableRooms := [1], score := 1 }] ∧
     ∀ s ∈ lecturerSessions [exBusyAllDay] 2 0, s.startTime < s.endTime) ∧
    (([({ startTime := 480, endTime := 600, durationMinutes := 120,
          availableRooms := [1], score := 1 } : Suggestion)] : List Suggestion).length ≤ 5 ∧
     List.Pairwise (fun x y : Suggestion =>
       y.score < x.score ∨ (x.score = y.score ∧ x.startTime < y.startTime))
       [({ startTime := 480, endTime := 600, durationMinutes := 120,
           availableRooms := [1], score := 1 } : Suggestion)]) :=
  ⟨⟨rfl, by decide⟩,
   suggestions_sorted_and_capped exUsers exAssignments exRooms [exBusyAllDay]
     exParams 10 0 2 { id := 10, lecturerId := 1, department := 5, level := 100 }
     { id := 2, role := "lecturer" } _ rfl rfl rfl rfl rfl rfl (by decide)⟩

theorem patternIncrement_pos {p : RecurrencePattern} {inc : Nat}
    (h : patternIncrement p = some inc) : 0 < inc := by
  cases p <;> simp [patternIncrement] at h <;> omega

/- The visited dates are exactly the positive multiples of the increment
added to the starting date, up to the end date, once the fuel covers the
whole range. -/
theorem mem_iterDates (inc endDate : Nat) (hinc : 0 < inc) :
    ∀ (fuel current : Nat), endDate + 1 ≤ fuel + current →
      ∀ d2, d2 ∈ iterDates inc endDate fuel current ↔
        (∃ j, d2 = current + j * inc ∧ d2 ≤ endDate) := by
  intro fuel
  induction fuel with
  | zero =>
    intro current hfuel d2
    simp only [iterDates, List.not_mem_nil, false_iff]
    rintro ⟨j, rfl, hle⟩
    omega
  | succ fuel ih =>
    intro current hfuel d2
    simp only [iterDates]
    by_cases hcur : current ≤ endDate
    · rw [if_pos hcur]
      rw [List.mem_cons, ih (current + inc) (by omega) d2]
      constructor
      · rintro (rfl | ⟨j, rfl, hle⟩)
        · exact ⟨0, by omega, hcur⟩
        · exact ⟨j + 1, by rw [Nat.succ_mul]; omega, hle⟩
      · rintro ⟨j, rfl, hle⟩
        cases j with
        | zero => exact Or.inl (by omega)
        | succ j => exact Or.inr ⟨j, by rw [Nat.succ_mul] at hle ⊢; omega, hle⟩
    · rw [if_neg hcur]
      simp only [List.not_mem_nil, false_iff]
      rintro ⟨j, rfl, hle⟩
      omega

/- The children persisted by the loop: one per visited date that is
conflict-free against the pre-existing database (children saved earlier
live on strictly earlier dates and cannot affect later checks), each a
clone of the parent at its date. -/
theorem expandLoop_children (parent : Session) (inc endDate : Nat)
    (hinc : 0 < inc) :
    ∀ (fuel current nextId : Nat) (db0 extra : List Session),
      (∀ s ∈ extra, s.scheduledDate < current) →
      ((expandLoop parent inc endDate fuel current nextId (db0 ++ extra)).2.map
          Session.scheduledDate
        = (iterDates inc endDate fuel current).filter
            (fun d2 => (check_conflicts (recurringClone parent d2) db0).isEmpty)) ∧
      (∀ c ∈ (expandLoop parent inc endDate fuel current nextId
          (db0 ++ extra)).2,
        ∃ k, c = { recurringClone parent c.scheduledDate with id := some k }) := by
  intro fuel
  induction fuel with
  | zero =>
    intro current nextId db0 extra hextra
    simp [expandLoop, iterDates]
  | succ fuel ih =>
    intro current nextId db0 extra hextra
    simp only [expandLoop, iterDates]
    by_cases hcur : current ≤ endDate
    · rw [if_pos hcur, if_pos hcur]
      have hconfl : check_conflicts (recurringClone parent current)
          (db0 ++ extra) = check_conflicts (recurringClone parent current) db0 :=
        check_conflicts_append _ db0 extra (fun s hs => by
          have h2 := hextra s hs
          show s.scheduledDate ≠ (recurringClone parent current).scheduledDate
          exact Nat.ne_of_lt h2)
      rw [hconfl]
      by_cases hok :
          (check_conflicts (recurringClone parent current) db0).isEmpty = true
      · rw [if_pos hok]
        rw [@List.filter_cons_of_pos _ (fun d2 =>
          (check_conflicts (recurringClone parent d2) db0).isEmpty) current
          (iterDates inc endDate fuel (current + inc)) (by exact hok)]
        rw [List.append_assoc]
        have hextra2 : ∀ s ∈ extra ++
            [{ recurringClone parent current with id := some nextId }],
            s.scheduledDate < current + inc := by
          intro s hs
          rcases List.mem_append.mp hs with hs2 | hs2
          · exact Nat.lt_of_lt_of_le (hextra s hs2) (Nat.le_add_right _ _)
          · rw [List.mem_singleton] at hs2
            subst hs2
            show current < current + inc
            omega
        have IH := ih (current + inc) (nextId + 1) db0
          (extra ++ [{ recurringClone parent current with id := some nextId }])
          hextra2
        refine ⟨?_, ?_⟩
        · simp only [List.map_cons]
          rw [IH.1]
          rfl
        · intro c hc
          rcases List.mem_cons.mp hc with rfl | hc2
          · exact ⟨nextId, rfl⟩
          · exact IH.2 c hc2
      · rw [if_neg hok]
        rw [@List.filter_cons_of_neg _ (fun d2 =>
          (check_conflicts (recurringClone parent d2) db0).isEmpty) current
          (iterDates inc endDate fuel (current + inc)) (by exact hok)]
        have hextra2 : ∀ s ∈ extra, s.scheduledDate < current + inc :=
          fun s hs => Nat.lt_of_lt_of_le (hextra s hs) (Nat.le_add_right _ _)
        exact ih (current + inc) nextId db0 extra hextra2
    · rw [if_neg hcur, if_neg hcur]
      simp

/-- Claim C6: create_recurring_sessions visits the dates parent.date +
increment, parent.date + 2 * increment, ... while the date is within the
recurrence end date; it persists a child exactly for the visited dates on
which the conflict detector finds nothing (checked against the database;
earlier siblings live on earlier dates and cannot interfere), every child
is the clone of the parent at its date (isRecurring false,
parentSessionRef the parent id, scheduling fields copied) with a fresh
id, and conflicting dates are skipped with no error recorded anywhere. -/
theorem create_recurring_sessions_spec (db : List Session) (parent : Session)
    (nextId : Nat) (endDate inc : Nat)
    (hend : parent.recurrenceEndDate = some endDate)
    (hpat : patternIncrement parent.recurrencePattern = some inc) :
    ((create_recurring_sessions db parent nextId).2.map Session.scheduledDate
      = (iterDates inc endDate (endDate + 1) (parent.scheduledDate + inc)).filter
          (fun d2 => (check_conflicts (recurringClone parent d2) db).isEmpty)) ∧
    (∀ c ∈ (create_recurring_sessions db parent nextId).2,
      ∃ k, c = { recurringClone parent c.scheduledDate with id := some k }) ∧
    (∀ d2, d2 ∈ iterDates inc endDate (endDate + 1) (parent.scheduledDate + inc) ↔
      (∃ k, 1 ≤ k ∧ d2 = parent.scheduledDate + k * inc ∧ d2 ≤ endDate)) := by
  have hinc := patternIncrement_pos hpat
  have hmain := expandLoop_children parent inc endDate hinc (endDate + 1)
    (parent.scheduledDate + inc) nextId db [] (by simp)
  rw [List.append_nil] at hmain
  rw [create_recurring_sessions, hend, hpat]
  refine ⟨hmain.1, hmain.2, ?_⟩
  intro d2
  rw [mem_iterDates inc endDate hinc (endDate + 1) (parent.scheduledDate + inc)
    (by omega) d2]
  constructor
  · rintro ⟨j, rfl, hle⟩
    exact ⟨j + 1, by omega, by rw [Nat.succ_mul]; omega, hle⟩
  · rintro ⟨k, hk1, rfl, hle⟩
    cases k with
    | zero => omega
    | succ j => exact ⟨j, by rw [Nat.succ_mul]; omega, hle⟩

/-- Witness for C6: the weekly parent of scenario E dated day 10 with end
day 31 over a database holding only the parent; the children are dated
17, 24 and 31. -/
theorem create_recurring_sessions_spec_witness :
    (exParent.recurrenceEndDate = some 31 ∧
      patternIncrement exParent.recurrencePattern = some 7) ∧
    ((create_recurring_sessions [exParent] exParent 2).2.map
        Session.scheduledDate
      = (iterDates 7 31 32 17).filter
          (fun d2 =>
            (check_conflicts (recurringClone exParent d2) [exParent]).isEmpty)) ∧
    (create_recurring_sessions [exParent] exParent 2).2.map
        Session.scheduledDate = [17, 24, 31] :=
  ⟨⟨rfl, rfl⟩,
   (create_recurring_sessions_spec [exParent] exParent 2 31 7 rfl rfl).1,
   by decide⟩

/-- Claim C7: create fails with a ValidationError when endTime is not
after startTime (and, reading the three validation clauses in source
order, whenever the input is recurring with pattern none or recurring
without an end date); once validation passes it fails with the error
carrying the full conflict list whenever the conflict detector returns
a non-empty list; and on every failure the database is unchanged, since
the error is raised before the save. -/
theorem perform_create_errors (db : List Session) (input : Session)
    (nextId : Nat) :
    (input.endTime ≤ input.startTime →
      perform_create db input nextId =
        Except.error
          (CreateError.validation "End time must be after start time")) ∧
    (input.isRecurring = true → input.recurrencePattern = RecurrencePattern.none →
      ∃ m, perform_create db input nextId =
        Except.error (CreateError.validation m)) ∧
    (input.isRecurring = true → input.recurrenceEndDate = Option.none →
      ∃ m, perform_create db input nextId =
        Except.error (CreateError.validation m)) ∧
    (serializer_validate input = Except.ok input →
      check_conflicts { input with id := (Option.none : Option Nat) } db ≠ [] →
      perform_create db input nextId =
        Except.error (CreateError.conflict
          (check_conflicts { input with id := (Option.none : Option Nat) } db))) ∧
    (∀ e, perform_create db input nextId = Except.error e →
      createResultDb db input nextId = db) := by
  have hval : ∀ m, serializer_validate input = Except.error m →
      perform_create db input nextId =
        Except.error (CreateError.validation m) := by
    intro m hm
    rw [perform_create, hm]
  refine ⟨?_, ?_, ?_, ?_, ?_⟩
  · intro h
    exact hval _ (by rw [serializer_validate, if_pos h])
  · intro h1 h2
    by_cases ha : input.endTime ≤ input.startTime
    · exact ⟨_, hval _ (by rw [serializer_validate, if_pos ha])⟩
    by_cases hb : input.attendanceWindowEnd ≤ input.attendanceWindowStart
    · exact ⟨_, hval _ (by rw [serializer_validate, if_neg ha, if_pos hb])⟩
    refine ⟨"Recurrence pattern must be specified for recurring sessions",
      hval _ ?_⟩
    rw [serializer_validate, if_neg ha, if_neg hb, if_pos (by simp [h1, h2])]
  · intro h1 h2
    by_cases ha : input.endTime ≤ input.startTime
    · exact ⟨_, hval _ (by rw [serializer_validate, if_pos ha])⟩
    by_cases hb : input.attendanceWindowEnd ≤ input.attendanceWindowStart
    · exact ⟨_, hval _ (by rw [serializer_validate, if_neg ha, if_pos hb])⟩
    by_cases hc : (input.isRecurring &&
        input.recurrencePattern == RecurrencePattern.none) = true
    · exact ⟨_, hval _ (by
        rw [serializer_validate, if_neg ha, if_neg hb, if_pos hc])⟩
    refine ⟨"Recurrence end date is required for recurring sessions",
      hval _ ?_⟩
    rw [serializer_validate, if_neg ha, if_neg hb, if_neg hc,
      if_pos (by simp [h1, h2])]
  · intro hok hne
    rw [perform_create, hok]
    have hempty : (check_conflicts
        { input with id := (Option.none : Option Nat) } db).isEmpty = false := by
      cases hc : (check_conflicts
          { input with id := (Option.none : Option Nat) } db) with
      | nil => exact absurd hc hne
      | cons a l => rfl
    simp only [hempty]
    rfl
  · intro e he
    rw [createResultDb, he]

/-- Witness for C7 at a concrete input whose end time equals its start
time: the create request fails with the time-ordering validation error
and the database stays empty. -/
theorem perform_create_errors_witness :
    (exBadInput.endTime ≤ exBadInput.startTime) ∧
    perform_create [] exBadInput 1 =
      Except.error (CreateError.validation "End time must be after start time") ∧
    createResultDb [] exBadInput 1 = [] :=
  ⟨by decide,
   (perform_create_errors [] exBadInput 1).1 (by decide),
   (perform_create_errors [] exBadInput 1).2.2.2.2 _
     ((perform_create_errors [] exBadInput 1).1 (by decide))⟩
